import Mathlib

/-!
Shallow embedding of `src/sentinel.py` (qb-tracker-sentinel): per-tracker
seeding limits for qBittorrent.  Python floats (ratios, timestamps) are
modelled as rationals, Python ints as `Int`, dicts keyed by strings as
association lists, and exceptions as `Except`/error fields.
-/

namespace Sentinel

/-- Python `str.strip()`: drop leading and trailing whitespace. -/
def pyStrip (s : String) : String :=
  ⟨(((s.data.dropWhile Char.isWhitespace).reverse).dropWhile Char.isWhitespace).reverse⟩

/-- Python `str.lower()`. -/
def pyLower (s : String) : String :=
  ⟨s.data.map Char.toLower⟩

/-- Python `str.upper()`. -/
def pyUpper (s : String) : String :=
  ⟨s.data.map Char.toUpper⟩

/-- Helper for `pySplitComma`: accumulates the current field (reversed). -/
def splitCommaChars : List Char → List Char → List String
  | [], acc => [⟨acc.reverse⟩]
  | c :: rest, acc =>
      if c = ',' then ⟨acc.reverse⟩ :: splitCommaChars rest []
      else splitCommaChars rest (c :: acc)

/-- Python `str.split(",")`. -/
def pySplitComma (s : String) : List String :=
  splitCommaChars s.data []

/-- Python `",".join(l)`. -/
def pyJoinComma : List String → String
  | [] => ""
  | [s] => s
  | s :: rest => s ++ "," ++ pyJoinComma rest

/-- Policy thresholds and actions (`Policy` dataclass, sentinel.py lines 17-26).
`ratio`, `seeding_minutes` and `idle_minutes` have no dataclass defaults;
`action`, `include_tags` and `exclude_tags` do. -/
structure Policy where
  ratio : ℚ
  seeding_minutes : Int
  idle_minutes : Int
  action : String := "pause"
  include_tags : List String := []
  exclude_tags : List String := []
deriving Repr, DecidableEq

/-- The raw `policy.default` / tracker-override mapping as read from YAML:
each Policy field is present (`some`) or absent (`none`). -/
structure RawPolicy where
  ratio : Option ℚ := none
  seeding_minutes : Option Int := none
  idle_minutes : Option Int := none
  action : Option String := none
  include_tags : Option (List String) := none
  exclude_tags : Option (List String) := none
deriving Repr, DecidableEq

/-- Python `Policy(**d)`: a dataclass call fails with `TypeError` when a field
without a default (`ratio`, `seeding_minutes`, `idle_minutes`) is missing;
fields with defaults fall back to them. -/
def Policy.ofDict (d : RawPolicy) : Except String Policy :=
  match d.ratio, d.seeding_minutes, d.idle_minutes with
  | some r, some s, some i =>
      Except.ok { ratio := r, seeding_minutes := s, idle_minutes := i,
                  action := d.action.getD "pause",
                  include_tags := d.include_tags.getD [],
                  exclude_tags := d.exclude_tags.getD [] }
  | _, _, _ => Except.error "TypeError: Policy missing required argument"

/-- Python dict merge `{**default, **cfg}`: keys of `cfg` win. -/
def RawPolicy.merge (base cfg : RawPolicy) : RawPolicy where
  ratio := cfg.ratio.orElse fun _ => base.ratio
  seeding_minutes := cfg.seeding_minutes.orElse fun _ => base.seeding_minutes
  idle_minutes := cfg.idle_minutes.orElse fun _ => base.idle_minutes
  action := cfg.action.orElse fun _ => base.action
  include_tags := cfg.include_tags.orElse fun _ => base.include_tags
  exclude_tags := cfg.exclude_tags.orElse fun _ => base.exclude_tags

/-- `Config` dataclass (sentinel.py lines 29-36); the `qbittorrent` connection
dict is external collaborator configuration and is not modelled. -/
structure Config where
  default_policy : Policy
  tracker_policies : List (String × Policy)
  interval_seconds : Int
  dry_run : Bool
  log_level : String := "INFO"
deriving Repr, DecidableEq

/-- The relevant parts of the raw YAML document handed to `Config.from_dict`:
`policy.default`, `policy.trackers`, and the `runtime` section, with `none`
for absent keys.  (`data.get("policy", {}).get(..., {})` yields the empty
dict, i.e. the all-`none` `RawPolicy`.) -/
structure RawConfig where
  policy_default : RawPolicy := {}
  policy_trackers : List (String × RawPolicy) := []
  interval_seconds : Option Int := none
  dry_run : Option Bool := none
  log_level : Option String := none
deriving Repr, DecidableEq

/-- `Config.from_dict` (sentinel.py lines 38-55): builds the default policy
with `Policy(**policy.get("default", {}))`, each tracker policy with
`Policy(**{**default, **cfg})`, and applies the runtime defaults
`interval_seconds=60`, `dry_run=True`, `log_level="INFO"`. -/
def Config.from_dict (d : RawConfig) : Except String Config := do
  let default_policy ← Policy.ofDict d.policy_default
  let trackers ← d.policy_trackers.mapM fun hc => do
    let p ← Policy.ofDict (RawPolicy.merge d.policy_default hc.2)
    pure (hc.1, p)
  pure { default_policy := default_policy,
         tracker_policies := trackers,
         interval_seconds := d.interval_seconds.getD 60,
         dry_run := d.dry_run.getD true,
         log_level := d.log_level.getD "INFO" }

/-- The tag normalization inside `match_tags` (line 72):
`set(tag.strip() for tag in torrent_tags if tag)`. -/
def normalizeTags (torrent_tags : List String) : List String :=
  (torrent_tags.filter fun tag => tag ≠ "").map pyStrip

/-- `match_tags` (sentinel.py lines 71-77). -/
def match_tags (torrent_tags : List String) (policy : Policy) : Bool :=
  let tags := normalizeTags torrent_tags
  if !policy.include_tags.isEmpty && !(tags.any fun tag => policy.include_tags.contains tag) then
    false
  else if !policy.exclude_tags.isEmpty && (tags.any fun tag => policy.exclude_tags.contains tag) then
    false
  else
    true

/-- A per-cycle torrent snapshot as used by `Sentinel._cycle`; `tags` is the
raw comma-separated string qBittorrent reports. -/
structure Torrent where
  hash : String
  name : String
  tags : String
  ratio : ℚ
  seeding_time : Int
  uploaded : Int
  upspeed : Int
deriving Repr, DecidableEq

/-- `t.tags.split(",") if t.tags else []` (line 125). -/
def tagsOf (t : Torrent) : List String :=
  if t.tags = "" then [] else pySplitComma t.tags

/-- One value of `self.state` (line 97): `{"uploaded": ..., "last_up": ...}`. -/
structure IdleEntry where
  uploaded : Int
  last_up : ℚ
deriving Repr, DecidableEq

/-- `self.state`: a dict keyed by torrent hash, as an association list. -/
abbrev StateMap := List (String × IdleEntry)

/-- Dict lookup. -/
def findEntry : StateMap → String → Option IdleEntry
  | [], _ => none
  | (k, e) :: rest, h => if k = h then some e else findEntry rest h

/-- Dict store `d[h] = e` (replaces the entry when present, appends otherwise). -/
def setEntry : StateMap → String → IdleEntry → StateMap
  | [], h, e => [(h, e)]
  | (k, e0) :: rest, h, e =>
      if k = h then (k, e) :: rest else (k, e0) :: setEntry rest h e

/-- Python `dict.setdefault(h, e)`: returns the stored entry, inserting `e`
first when `h` is absent. -/
def setdefaultEntry (st : StateMap) (h : String) (e : IdleEntry) : StateMap × IdleEntry :=
  match findEntry st h with
  | some e0 => (st, e0)
  | none => (st ++ [(h, e)], e)

/-- Lines 134-139 of `Sentinel._cycle`: the idle-state bookkeeping for one
torrent and the resulting `"idle"` reason (if any).  `setdefault` seeds the
entry with the current `uploaded` and `now`; a strict increase of uploaded
bytes overwrites both fields; otherwise, when `policy.idle_minutes` is truthy,
the upload speed is zero and `(now - last_up) / 60 >= idle_minutes`, the
`"idle"` reason fires. -/
def observeStep (policy : Policy) (t : Torrent) (now : ℚ) (st : StateMap) :
    StateMap × List String :=
  let sd := setdefaultEntry st t.hash ⟨t.uploaded, now⟩
  let st1 := sd.1
  let entry := sd.2
  if entry.uploaded < t.uploaded then
    (setEntry st1 t.hash ⟨t.uploaded, now⟩, [])
  else if policy.idle_minutes ≠ 0 ∧ t.upspeed = 0 ∧
      (policy.idle_minutes : ℚ) ≤ (now - entry.last_up) / 60 then
    (st1, ["idle"])
  else
    (st1, [])

/-- Lines 128-132 of `Sentinel._cycle`: the `"ratio"` and `"seeding_time"`
reasons.  `policy.ratio and t.ratio >= policy.ratio` (Python truthiness:
nonzero), `policy.seeding_minutes and t.seeding_time // 60 >=
policy.seeding_minutes` (Python `//` is floor division). -/
def ratioSeedingReasons (policy : Policy) (t : Torrent) : List String :=
  (if policy.ratio ≠ 0 ∧ policy.ratio ≤ t.ratio then ["ratio"] else []) ++
  (if policy.seeding_minutes ≠ 0 ∧ policy.seeding_minutes ≤ t.seeding_time.fdiv 60 then
    ["seeding_time"] else [])

/-- External client commands issued by `_apply_action`. -/
inductive ExtCall where
  | pause (hash : String)
  | delete (hash : String) (delete_files : Bool)
deriving Repr, DecidableEq

/-- `tracker_host or '-'` (line 146): Python `or` treats `None` and the empty
string as falsy. -/
def hostDisplay : Option String → String
  | none => "-"
  | some h => if h = "" then "-" else h

/-- The audit line of `_apply_action` (line 146), built after lowercasing. -/
def auditMsg (action tHash tName : String) (tracker_host : Option String)
    (reasons : List String) : String :=
  pyUpper action ++ " | " ++ tHash ++ " | " ++ tName ++ " | " ++
    hostDisplay tracker_host ++ " | " ++ pyJoinComma reasons

/-- `Sentinel._apply_action` (lines 144-156).  `callFails` models the external
pause/delete call raising; the code has no handler, so a failure surfaces as
`Except.error` and the trailing `logging.info(msg)` is not reached.  The
result carries the external calls issued and the log lines emitted. -/
def apply_action (dry_run callFails : Bool) (tHash tName : String)
    (tracker_host : Option String) (action0 : String) (reasons : List String) :
    Except String (List ExtCall × List String) :=
  let action := pyLower action0
  let msg := auditMsg action tHash tName tracker_host reasons
  if dry_run then
    Except.ok ([], ["DRY-RUN: " ++ msg])
  else
    let calls : List ExtCall :=
      if action = "pause" then [ExtCall.pause tHash]
      else if action = "remove" then [ExtCall.delete tHash false]
      else if action = "remove_data" then [ExtCall.delete tHash true]
      else []
    if !calls.isEmpty && callFails then Except.error "APIError"
    else Except.ok (calls, [msg])

/-- `self.dry_run = dry_run_override or cfg.dry_run` (line 96). -/
def effectiveDryRun (dry_run_override cfg_dry_run : Bool) : Bool :=
  dry_run_override || cfg_dry_run

/-- `self.cfg.tracker_policies.get(tracker_host, self.cfg.default_policy)`
(line 124); a `None` tracker host is never a dict key, so it falls back to the
default policy. -/
def resolvePolicy (cfg : Config) (tracker_host : Option String) : Policy :=
  match tracker_host with
  | none => cfg.default_policy
  | some h =>
      match cfg.tracker_policies.lookup h with
      | some p => p
      | none => cfg.default_policy

/-- The external world one cycle talks to: `trackerOf` models
`get_tracker_host` (`None` when no tracker URL parses or the lookup fails
soft), `callFails` models whether the pause/delete call for a given hash
raises. -/
structure Env where
  trackerOf : String → Option String
  callFails : String → Bool

/-- Result of (a prefix of) one cycle: the mutated state map, the external
calls made, the log lines emitted, and the propagating exception, if any. -/
structure CycleResult where
  state : StateMap
  calls : List ExtCall
  logs : List String
  err : Option String
deriving Repr, DecidableEq

/-- The per-torrent body of `Sentinel._cycle` (lines 122-142): resolve the
tracker host and policy, skip the torrent entirely when `match_tags` rejects
it, otherwise collect reasons, run the idle bookkeeping, and dispatch when
the reason list is non-empty.  State mutations precede dispatch, so they
persist even when the dispatch call raises. -/
def processTorrent (cfg : Config) (dry_run : Bool) (env : Env) (now : ℚ)
    (st : StateMap) (t : Torrent) : CycleResult :=
  let tracker_host := env.trackerOf t.hash
  let policy := resolvePolicy cfg tracker_host
  if !match_tags (tagsOf t) policy then
    ⟨st, [], [], none⟩
  else
    let rs := ratioSeedingReasons policy t
    let ob := observeStep policy t now st
    let reasons := rs ++ ob.2
    if reasons.isEmpty then
      ⟨ob.1, [], [], none⟩
    else
      match apply_action dry_run (env.callFails t.hash) t.hash t.name
          tracker_host policy.action reasons with
      | Except.ok cl => ⟨ob.1, cl.1, cl.2, none⟩
      | Except.error e => ⟨ob.1, [], [], some e⟩

/-- `Sentinel._cycle` (lines 119-142) over the fetched torrent list: torrents
are processed in order with a single `now`; an uncaught exception from a
torrent's dispatch stops the loop there (the remaining torrents are not
reached) and propagates with the state mutated so far. -/
def runCycle (cfg : Config) (dry_run : Bool) (env : Env) (now : ℚ) :
    StateMap → List Torrent → CycleResult
  | st, [] => ⟨st, [], [], none⟩
  | st, t :: rest =>
      let r := processTorrent cfg dry_run env now st t
      match r.err with
      | some e => ⟨r.state, r.calls, r.logs, some e⟩
      | none =>
          let r2 := runCycle cfg dry_run env now r.state rest
          ⟨r2.state, r.calls ++ r2.calls, r.logs ++ r2.logs, r2.err⟩

/-- A sequence of observations of the idle-state bookkeeping (each cycle
contributes one `observeStep` per admitted torrent, with that cycle's
`time.time()` as `now`). -/
def observeSeq (st : StateMap) : List (Policy × Torrent × ℚ) → StateMap
  | [] => st
  | o :: rest => observeSeq (observeStep o.1 o.2.1 o.2.2 st).1 rest


lemma isEmpty_false_of_ne_nil {α : Type} {l : List α} (h : l ≠ []) : l.isEmpty = false := by
  cases l with
  | nil => exact absurd rfl h
  | cons a l => rfl

lemma findEntry_append_left : ∀ (st l : StateMap) (h : String) (e : IdleEntry),
    findEntry st h = some e → findEntry (st ++ l) h = some e
  | [], _, _, _, hf => by cases hf
  | (k, e0) :: rest, l, h, e, hf => by
      simp only [findEntry] at hf
      simp only [List.cons_append, findEntry]
      split at hf
      · rename_i hk; rw [if_pos hk]; exact hf
      · rename_i hk; rw [if_neg hk]; exact findEntry_append_left rest l h e hf

lemma findEntry_setEntry_self : ∀ (st : StateMap) (h : String) (e : IdleEntry),
    findEntry (setEntry st h e) h = some e
  | [], h, e => by simp [setEntry, findEntry]
  | (k, e0) :: rest, h, e => by
      simp only [setEntry]
      split
      · rename_i hk; simp [findEntry, hk]
      · rename_i hk
        simp only [findEntry, if_neg hk]
        exact findEntry_setEntry_self rest h e

lemma findEntry_setEntry_other : ∀ (st : StateMap) (k0 h : String) (e : IdleEntry),
    k0 ≠ h → findEntry (setEntry st k0 e) h = findEntry st h
  | [], k0, h, e, hne => by simp [setEntry, findEntry, hne]
  | (k, e0) :: rest, k0, h, e, hne => by
      simp only [setEntry]
      split
      · rename_i hk
        subst hk
        simp [findEntry, hne]
      · rename_i hk
        simp only [findEntry]
        split
        · rfl
        · exact findEntry_setEntry_other rest k0 h e hne

lemma observeStep_find_cases (p : Policy) (t : Torrent) (now : ℚ) (st : StateMap)
    (h : String) (e : IdleEntry) (hf : findEntry st h = some e) :
    findEntry (observeStep p t now st).1 h = some e
    ∨ (h = t.hash ∧ e.uploaded < t.uploaded ∧
        findEntry (observeStep p t now st).1 h = some ⟨t.uploaded, now⟩) := by
  simp only [observeStep, setdefaultEntry]
  cases hsd : findEntry st t.hash with
  | none =>
      simp only [lt_irrefl, if_false]
      left
      split
      · exact findEntry_append_left st _ h e hf
      · exact findEntry_append_left st _ h e hf
  | some e0 =>
      by_cases hup : e0.uploaded < t.uploaded
      · rw [if_pos hup]
        by_cases hh : h = t.hash
        · subst hh
          rw [hf] at hsd
          cases hsd
          exact Or.inr ⟨rfl, hup, findEntry_setEntry_self st t.hash _⟩
        · left
          rw [findEntry_setEntry_other st t.hash h _ (fun hc => hh hc.symm)]
          exact hf
      · rw [if_neg hup]
        left
        split
        · exact hf
        · exact hf

lemma observeSeq_mono : ∀ (obs : List (Policy × Torrent × ℚ)) (st : StateMap)
    (h : String) (e : IdleEntry),
    findEntry st h = some e →
    (obs.map fun o => o.2.2).Pairwise (fun a b => a ≤ b) →
    (∀ τ ∈ obs.map fun o => o.2.2, e.last_up ≤ τ) →
    ∃ e2, findEntry (observeSeq st obs) h = some e2 ∧
      e.uploaded ≤ e2.uploaded ∧ e.last_up ≤ e2.last_up
  | [], st, h, e, hf, _, _ => ⟨e, hf, le_refl _, le_refl _⟩
  | (p, t, now) :: rest, st, h, e, hf, hsort, hge => by
      simp only [List.map_cons, List.pairwise_cons] at hsort
      obtain ⟨hnow_rest, hsort2⟩ := hsort
      have hge_now : e.last_up ≤ now := hge now (by simp)
      simp only [observeSeq]
      rcases observeStep_find_cases p t now st h e hf with hcase | ⟨hh, hup, hfind⟩
      · exact observeSeq_mono rest _ h e hcase hsort2
          (fun τ hτ => hge τ (by simp only [List.map_cons, List.mem_cons]; exact Or.inr hτ))
      · obtain ⟨e2, h1, h2, h3⟩ := observeSeq_mono rest _ h ⟨t.uploaded, now⟩ hfind hsort2
          (fun τ hτ => hnow_rest τ hτ)
        exact ⟨e2, h1, le_trans (le_of_lt hup) h2, le_trans hge_now h3⟩


lemma ratioSeedingReasons_nil (policy : Policy) (t : Torrent)
    (h1 : policy.ratio = 0) (h2 : policy.seeding_minutes = 0) :
    ratioSeedingReasons policy t = [] := by
  simp [ratioSeedingReasons, h1, h2]

lemma observeStep_snd_cases (policy : Policy) (t : Torrent) (now : ℚ) (st : StateMap) :
    (observeStep policy t now st).2 = [] ∨ (observeStep policy t now st).2 = ["idle"] := by
  simp only [observeStep]
  split
  · left; rfl
  · split
    · right; rfl
    · left; rfl

lemma observeStep_snd_idle_zero (policy : Policy) (t : Torrent) (now : ℚ) (st : StateMap)
    (h : policy.idle_minutes = 0) :
    (observeStep policy t now st).2 = [] := by
  simp only [observeStep]
  split
  · rfl
  · split
    · rename_i hc
      exact absurd h hc.1
    · rfl

/-- C6: for every torrent, policy and idle state, the reason list built by one
cycle iteration (lines 128-139) is a subsequence of
`["ratio", "seeding_time", "idle"]`: the order is fixed and no reason repeats. -/
theorem reasons_sublist (policy : Policy) (t : Torrent) (now : ℚ) (st : StateMap) :
    List.Sublist (ratioSeedingReasons policy t ++ (observeStep policy t now st).2)
      ["ratio", "seeding_time", "idle"] := by
  rcases observeStep_snd_cases policy t now st with h | h <;>
    rw [h] <;> unfold ratioSeedingReasons <;> split <;> split <;> simp

/-- C5: the first observation of a hash never produces the `"idle"` reason:
with no existing state entry, `setdefault` seeds `last_up := now`, so the
idle duration is `0`, below any positive `idle_minutes` threshold. -/
theorem first_observation_no_idle (policy : Policy) (t : Torrent) (now : ℚ) (st : StateMap)
    (hnew : findEntry st t.hash = none) (hpos : 0 < policy.idle_minutes) :
    (observeStep policy t now st).2 = [] := by
  simp only [observeStep, setdefaultEntry, hnew]
  rw [if_neg (lt_irrefl t.uploaded)]
  rw [if_neg]
  rintro ⟨h1, h2, h3⟩
  rw [sub_self, zero_div] at h3
  have : (0:ℚ) < policy.idle_minutes := by exact_mod_cast hpos
  linarith

theorem first_observation_no_idle_witness :
    (observeStep ⟨0, 0, 30, "pause", [], []⟩ ⟨"h", "n", "", 2, 0, 1000, 0⟩ 5 []).2 = [] :=
  first_observation_no_idle ⟨0, 0, 30, "pause", [], []⟩ ⟨"h", "n", "", 2, 0, 1000, 0⟩ 5 []
    rfl (by decide)

/-- C9: `match_tags` rejects every torrent whose (normalized) tag set is empty
whenever the policy's `include_tags` list is non-empty. -/
theorem empty_tagset_rejected (torrent_tags : List String) (policy : Policy)
    (hinc : policy.include_tags ≠ [])
    (hempty : normalizeTags torrent_tags = []) :
    match_tags torrent_tags policy = false := by
  simp [match_tags, hempty, isEmpty_false_of_ne_nil hinc]

theorem empty_tagset_rejected_witness :
    match_tags [] ⟨0, 0, 0, "pause", ["tv"], []⟩ = false :=
  empty_tagset_rejected [] ⟨0, 0, 0, "pause", ["tv"], []⟩ (by decide) rfl

/-- C7: in dry-run mode (config `dry_run` or the `--dry-run` override),
`_apply_action` issues no external call and emits exactly one
`"DRY-RUN: "`-prefixed audit line. -/
theorem dry_run_no_external_calls (o c cf : Bool) (tHash tName : String)
    (th : Option String) (a : String) (rs : List String)
    (h : o = true ∨ c = true) :
    apply_action (effectiveDryRun o c) cf tHash tName th a rs =
      Except.ok ([], ["DRY-RUN: " ++ auditMsg (pyLower a) tHash tName th rs]) := by
  have hd : effectiveDryRun o c = true := by
    rcases h with h | h <;> simp [effectiveDryRun, h]
  simp [apply_action, hd]

theorem dry_run_no_external_calls_witness :
    apply_action (effectiveDryRun true false) false "h" "n" none "pause" ["ratio"] =
      Except.ok ([], ["DRY-RUN: " ++ auditMsg (pyLower "pause") "h" "n" none ["ratio"]]) :=
  dry_run_no_external_calls true false false "h" "n" none "pause" ["ratio"] (Or.inl rfl)

/-- C8: a torrent rejected by the tag filter is skipped entirely: the state
map is returned unchanged (no entry created or modified for its hash) and no
evaluation, external call or log happens for it. -/
theorem tag_rejected_skipped (cfg : Config) (dr : Bool) (env : Env) (now : ℚ)
    (st : StateMap) (t : Torrent)
    (hrej : match_tags (tagsOf t) (resolvePolicy cfg (env.trackerOf t.hash)) = false) :
    processTorrent cfg dr env now st t = ⟨st, [], [], none⟩ := by
  simp [processTorrent, hrej]

theorem tag_rejected_skipped_witness :
    processTorrent ⟨⟨0, 0, 0, "pause", ["tv"], []⟩, [], 60, true, "INFO"⟩ true
      ⟨fun _ => none, fun _ => false⟩ 0 [] ⟨"h", "n", "movies", 0, 0, 0, 0⟩ =
      ⟨[], [], [], none⟩ :=
  tag_rejected_skipped ⟨⟨0, 0, 0, "pause", ["tv"], []⟩, [], 60, true, "INFO"⟩ true
    ⟨fun _ => none, fun _ => false⟩ 0 [] ⟨"h", "n", "movies", 0, 0, 0, 0⟩ (by decide)


/-- C1 counterexample: a config document whose default policy section omits
`ratio` (supplying only `seeding_minutes` and `idle_minutes`) does not load:
`Policy(**{...})` raises `TypeError` because the `ratio` dataclass field has
no default, contradicting the claim that loading succeeds with the omitted
threshold read as 0. -/
theorem missing_threshold_fails_load :
    Config.from_dict { policy_default := { seeding_minutes := some 0, idle_minutes := some 0 } } =
      Except.error "TypeError: Policy missing required argument" := rfl

/-- C1 (amended): `ratio`, `seeding_minutes` and `idle_minutes` are required
in the default policy section; when they are present, an omitted `action`
defaults to `"pause"`, an omitted `dry_run` to `true` and an omitted
`interval_seconds` to `60`. -/
theorem config_load_defaults (d : RawConfig) (r : ℚ) (s i : Int)
    (hr : d.policy_default.ratio = some r)
    (hs : d.policy_default.seeding_minutes = some s)
    (hi : d.policy_default.idle_minutes = some i)
    (ha : d.policy_default.action = none)
    (htr : d.policy_trackers = [])
    (hint : d.interval_seconds = none)
    (hdr : d.dry_run = none) :
    Config.from_dict d = Except.ok
      { default_policy :=
          { ratio := r, seeding_minutes := s, idle_minutes := i, action := "pause",
            include_tags := d.policy_default.include_tags.getD [],
            exclude_tags := d.policy_default.exclude_tags.getD [] },
        tracker_policies := [],
        interval_seconds := 60,
        dry_run := true,
        log_level := d.log_level.getD "INFO" } := by
  obtain ⟨⟨pr, ps, pi, pa, pit, pet⟩, ptr, pis, pdr, pll⟩ := d
  dsimp only at hr hs hi ha htr hint hdr
  subst hr hs hi ha htr hint hdr
  rfl

theorem config_load_defaults_witness :
    Config.from_dict { policy_default := { ratio := some 2, seeding_minutes := some 0, idle_minutes := some 0 } } =
      Except.ok
        { default_policy :=
            { ratio := 2, seeding_minutes := 0, idle_minutes := 0, action := "pause",
              include_tags := [], exclude_tags := [] },
          tracker_policies := [],
          interval_seconds := 60,
          dry_run := true,
          log_level := "INFO" } :=
  config_load_defaults
    { policy_default := { ratio := some 2, seeding_minutes := some 0, idle_minutes := some 0 } }
    2 0 0 rfl rfl rfl rfl rfl rfl rfl

/-- C2 counterexample: the action string `"explode"` is not one of
`pause`/`remove`/`remove_data`, yet `Policy(**{...})` (and hence config
loading) succeeds with no error, and `_apply_action` does encounter it at
dispatch time, where it matches no branch: no external call, only the audit
log line. -/
theorem unknown_action_counterexample :
    Policy.ofDict ⟨some 1, some 0, some 0, some "explode", none, none⟩ =
      Except.ok ⟨1, 0, 0, "explode", [], []⟩
    ∧ apply_action false false "h" "n" none "explode" ["ratio"] =
      Except.ok ([], ["EXPLODE | h | n | - | ratio"]) :=
  ⟨rfl, rfl⟩

/-- C2 (amended): unknown action strings are not rejected at
config-validation time (`Policy(**d)` succeeds iff the three threshold keys
are present, regardless of `action`), and dispatch does encounter them: an
action whose lowercase form is not `pause`/`remove`/`remove_data` silently
performs no external call and emits only the audit line. -/
theorem unknown_action_reaches_dispatch :
    (∀ d : RawPolicy, (∃ p, Policy.ofDict d = Except.ok p) ↔
      (d.ratio ≠ none ∧ d.seeding_minutes ≠ none ∧ d.idle_minutes ≠ none))
    ∧ (∀ (cf : Bool) (tHash tName : String) (th : Option String) (a : String)
        (rs : List String),
        pyLower a ∉ (["pause", "remove", "remove_data"] : List String) →
        apply_action false cf tHash tName th a rs =
          Except.ok ([], [auditMsg (pyLower a) tHash tName th rs])) := by
  constructor
  · intro d
    constructor
    · rintro ⟨p, hp⟩
      cases hr : d.ratio <;> cases hs : d.seeding_minutes <;> cases hi : d.idle_minutes <;>
        simp_all [Policy.ofDict]
    · rintro ⟨hr, hs, hi⟩
      obtain ⟨r, hr2⟩ := Option.ne_none_iff_exists'.mp hr
      obtain ⟨s, hs2⟩ := Option.ne_none_iff_exists'.mp hs
      obtain ⟨i, hi2⟩ := Option.ne_none_iff_exists'.mp hi
      refine ⟨⟨r, s, i, d.action.getD "pause", d.include_tags.getD [],
        d.exclude_tags.getD []⟩, ?_⟩
      simp [Policy.ofDict, hr2, hs2, hi2]
  · intro cf tHash tName th a rs hne
    have h1 : pyLower a ≠ "pause" := fun h => hne (by simp [h])
    have h2 : pyLower a ≠ "remove" := fun h => hne (by simp [h])
    have h3 : pyLower a ≠ "remove_data" := fun h => hne (by simp [h])
    simp [apply_action, h1, h2, h3]

theorem unknown_action_reaches_dispatch_witness :
    (∃ p, Policy.ofDict ⟨some 1, some 2, some 3, some "explode", none, none⟩ = Except.ok p)
    ∧ apply_action false true "h" "n" none "EXPLODE" ["ratio"] =
      Except.ok ([], [auditMsg (pyLower "EXPLODE") "h" "n" none ["ratio"]]) :=
  ⟨unknown_action_reaches_dispatch.1 _ |>.mpr (by simp),
   unknown_action_reaches_dispatch.2 true "h" "n" none "EXPLODE" ["ratio"] (by decide)⟩

/-- C4 counterexample: a negative threshold does not disable a rule.  With
`ratio = -1` (non-positive) every torrent of non-negative ratio triggers the
`"ratio"` reason, because Python truthiness (`policy.ratio`) only treats `0`
as falsy. -/
theorem negative_threshold_fires :
    ratioSeedingReasons ⟨-1, 0, 0, "pause", [], []⟩ ⟨"h", "n", "", 0, 0, 0, 0⟩ = ["ratio"] := by
  decide

/-- C4 (amended): a threshold equal to `0` disables its rule (`"ratio"`,
`"seeding_time"` and `"idle"` are then never produced), and a policy with all
three thresholds `0` dispatches no action for any torrent metrics. -/
theorem zero_thresholds_disable (policy : Policy) (t : Torrent) (now : ℚ) (st : StateMap)
    (cfg : Config) (dr : Bool) (env : Env) :
    (policy.ratio = 0 → "ratio" ∉ ratioSeedingReasons policy t)
    ∧ (policy.seeding_minutes = 0 → "seeding_time" ∉ ratioSeedingReasons policy t)
    ∧ (policy.idle_minutes = 0 → "idle" ∉ (observeStep policy t now st).2)
    ∧ (resolvePolicy cfg (env.trackerOf t.hash) = policy →
        policy.ratio = 0 → policy.seeding_minutes = 0 → policy.idle_minutes = 0 →
        (processTorrent cfg dr env now st t).calls = []
        ∧ (processTorrent cfg dr env now st t).logs = []
        ∧ (processTorrent cfg dr env now st t).err = none) := by
  refine ⟨?_, ?_, ?_, ?_⟩
  · intro h
    unfold ratioSeedingReasons
    split <;> split <;> simp_all
  · intro h
    unfold ratioSeedingReasons
    split <;> split <;> simp_all
  · intro h
    rw [observeStep_snd_idle_zero policy t now st h]
    simp
  · intro hres h1 h2 h3
    have hnil : ratioSeedingReasons policy t ++ (observeStep policy t now st).2 = [] := by
      rw [ratioSeedingReasons_nil policy t h1 h2, observeStep_snd_idle_zero policy t now st h3]
      rfl
    simp only [processTorrent, hres]
    split
    · exact ⟨rfl, rfl, rfl⟩
    · rw [hnil]
      simp

theorem zero_thresholds_disable_witness :
    ("ratio" ∉ ratioSeedingReasons ⟨0, 0, 0, "pause", [], []⟩ ⟨"h", "n", "", 9, 9999, 9, 9⟩)
    ∧ (processTorrent ⟨⟨0, 0, 0, "pause", [], []⟩, [], 60, true, "INFO"⟩ false
        ⟨fun _ => none, fun _ => false⟩ 0 [] ⟨"h", "n", "", 9, 9999, 9, 9⟩).calls = [] := by
  have h := zero_thresholds_disable ⟨0, 0, 0, "pause", [], []⟩ ⟨"h", "n", "", 9, 9999, 9, 9⟩ 0 []
    ⟨⟨0, 0, 0, "pause", [], []⟩, [], 60, true, "INFO"⟩ false ⟨fun _ => none, fun _ => false⟩
  exact ⟨h.1 rfl, (h.2.2.2 rfl rfl rfl rfl).1⟩


/-- C3 counterexample: a cycle over two triggering torrents in which the
external pause call for the first one fails.  The exception propagates: the
cycle ends with the error (`err = some "APIError"`), nothing is logged, and
the second torrent is never evaluated — no idle-state entry is created for
`"h2"`.  This contradicts the claim that the failure is logged and the
remaining torrents are still evaluated. -/
theorem dispatch_failure_counterexample :
    runCycle ⟨⟨1, 0, 0, "pause", [], []⟩, [], 60, false, "INFO"⟩ false
      ⟨fun _ => none, fun h => h == "h1"⟩ 0 []
      [⟨"h1", "n1", "", 2, 0, 0, 0⟩, ⟨"h2", "n2", "", 2, 0, 0, 0⟩] =
      ⟨[("h1", ⟨0, 0⟩)], [], [], some "APIError"⟩
    ∧ findEntry [("h1", ⟨0, 0⟩)] "h2" = none := by
  constructor
  · decide
  · decide

/-- C3 (amended): when the dispatch call for a torrent fails, the exception
aborts the cycle at that torrent: the cycle result is exactly that torrent's
partial result (state mutated so far, no log for the failure) and none of
the remaining torrents in the same cycle is evaluated. -/
theorem dispatch_failure_aborts_cycle (cfg : Config) (dr : Bool) (env : Env) (now : ℚ)
    (st : StateMap) (t : Torrent) (rest : List Torrent) (e : String)
    (herr : (processTorrent cfg dr env now st t).err = some e) :
    runCycle cfg dr env now st (t :: rest) =
      ⟨(processTorrent cfg dr env now st t).state,
       (processTorrent cfg dr env now st t).calls,
       (processTorrent cfg dr env now st t).logs, some e⟩ := by
  simp [runCycle, herr]

theorem dispatch_failure_aborts_cycle_witness :
    runCycle ⟨⟨1, 0, 0, "pause", [], []⟩, [], 60, false, "INFO"⟩ false
      ⟨fun _ => none, fun h => h == "h1"⟩ 0 []
      [⟨"h1", "n1", "", 2, 0, 0, 0⟩, ⟨"h2", "n2", "", 2, 0, 0, 0⟩] =
      ⟨(processTorrent ⟨⟨1, 0, 0, "pause", [], []⟩, [], 60, false, "INFO"⟩ false
          ⟨fun _ => none, fun h => h == "h1"⟩ 0 [] ⟨"h1", "n1", "", 2, 0, 0, 0⟩).state,
       (processTorrent ⟨⟨1, 0, 0, "pause", [], []⟩, [], 60, false, "INFO"⟩ false
          ⟨fun _ => none, fun h => h == "h1"⟩ 0 [] ⟨"h1", "n1", "", 2, 0, 0, 0⟩).calls,
       (processTorrent ⟨⟨1, 0, 0, "pause", [], []⟩, [], 60, false, "INFO"⟩ false
          ⟨fun _ => none, fun h => h == "h1"⟩ 0 [] ⟨"h1", "n1", "", 2, 0, 0, 0⟩).logs,
       some "APIError"⟩ :=
  dispatch_failure_aborts_cycle ⟨⟨1, 0, 0, "pause", [], []⟩, [], 60, false, "INFO"⟩ false
    ⟨fun _ => none, fun h => h == "h1"⟩ 0 [] ⟨"h1", "n1", "", 2, 0, 0, 0⟩
    [⟨"h2", "n2", "", 2, 0, 0, 0⟩] "APIError" (by decide)

/-- C10: invariants of the idle-tracking state.  A stored entry is never
removed by an observation; its `uploaded` field only changes when the
observed uploaded bytes strictly exceed it (and is then set to the observed
value, with `last_up` set to the observation time); and across any sequence
of observations with non-decreasing timestamps (at or after the entry's
baseline), both stored fields are non-decreasing. -/
theorem idle_state_invariant :
    (∀ (p : Policy) (t : Torrent) (now : ℚ) (st : StateMap) (h : String) (e : IdleEntry),
      findEntry st h = some e →
      findEntry (observeStep p t now st).1 h = some e
      ∨ (h = t.hash ∧ e.uploaded < t.uploaded ∧
          findEntry (observeStep p t now st).1 h = some ⟨t.uploaded, now⟩))
    ∧ (∀ (obs : List (Policy × Torrent × ℚ)) (st : StateMap) (h : String) (e : IdleEntry),
      findEntry st h = some e →
      (obs.map fun o => o.2.2).Pairwise (fun a b => a ≤ b) →
      (∀ τ ∈ obs.map fun o => o.2.2, e.last_up ≤ τ) →
      ∃ e2, findEntry (observeSeq st obs) h = some e2 ∧
        e.uploaded ≤ e2.uploaded ∧ e.last_up ≤ e2.last_up) :=
  ⟨observeStep_find_cases, observeSeq_mono⟩

theorem idle_state_invariant_witness :
    ∃ e2, findEntry (observeSeq [("h", ⟨5, 0⟩)]
        [(⟨0, 0, 0, "pause", [], []⟩, ⟨"h", "n", "", 0, 0, 10, 0⟩, 3)]) "h" = some e2 ∧
      (5 : Int) ≤ e2.uploaded ∧ (0 : ℚ) ≤ e2.last_up :=
  idle_state_invariant.2 [(⟨0, 0, 0, "pause", [], []⟩, ⟨"h", "n", "", 0, 0, 10, 0⟩, 3)]
    [("h", ⟨5, 0⟩)] "h" ⟨5, 0⟩ rfl (by simp) (by intro τ hτ; simp at hτ; subst hτ; norm_num)


end Sentinel
